import Mathlib

/-!
Shallow embedding of the book-api repository (Django REST bookshelf API).

The embedding models the two entities (User, Book), the user manager
(create_user, create_superuser from src/app/core/models.py), the image
path generator (book_image_file_path), the book serializers
(src/app/book/serializers.py) and the BookViewSet actions
(src/app/book/views.py).  The database is a list of records; randomness
(uuid4, password salt) is injected as explicit parameters; the HTTP
framework's auth layer is out of scope (every operation takes the
resolved caller identity as an argument, matching the claims, which all
assume an authenticated caller).
-/

/-- Index of the last occurrence of a character in a character list
(Python str.rfind restricted to a single character, as used by
os.path.splitext, posixpath.basename and str.rsplit at one separator). -/
def lastIdxOf (c : Char) : List Char → Option Nat
  | [] => none
  | x :: xs =>
    match lastIdxOf c xs with
    | some i => some (i + 1)
    | none => if x = c then some 0 else none

/-- os.path.splitext (posix): split a path into root and extension.  The
extension starts at the last dot, provided that dot lies after the last
slash and at least one character of the file name before it is not a
dot (so dotfiles such as ".bashrc" have no extension). -/
def splitext (p : String) : String × String :=
  let cs := p.data
  let fnameStart : Nat := match lastIdxOf '/' cs with | some i => i + 1 | none => 0
  match lastIdxOf '.' cs with
  | none => (p, "")
  | some di =>
    if fnameStart ≤ di then
      if ((cs.drop fnameStart).take (di - fnameStart)).any (fun ch => ch != '.') then
        (String.mk (cs.take di), String.mk (cs.drop di))
      else (p, "")
    else (p, "")

/-- posixpath.basename: everything after the last slash. -/
def basename (p : String) : String :=
  match lastIdxOf '/' p.data with
  | none => p
  | some i => String.mk (p.data.drop (i + 1))

/-- core.models.book_image_file_path: take the extension of the uploaded
file name, replace the name by a fresh uuid4 (injected here as the
parameter uuidHex, since the embedding is deterministic) and join under
uploads/book/. -/
def book_image_file_path (uuidHex : String) (filename : String) : String :=
  let ext := (splitext filename).2
  let newName := uuidHex ++ ext
  "uploads/book/" ++ newName

/-- Python str.strip(): drop leading and trailing whitespace. -/
def pyStrip (s : String) : List Char :=
  ((s.data.dropWhile Char.isWhitespace).reverse.dropWhile Char.isWhitespace).reverse

/-- Modelled from the spec: Django BaseUserManager.normalize_email, which
src/app/core/models.py calls but which lives in the framework, not under
src/.  It strips the email and lowercases the part after the last "@"
(the domain), leaving the local part untouched; an email with no "@" is
returned stripped but otherwise unchanged. -/
def normalize_email (email : String) : String :=
  let cs := pyStrip email
  match lastIdxOf '@' cs with
  | none => String.mk cs
  | some i => String.mk (cs.take i ++ '@' :: ((cs.drop (i + 1)).map Char.toLower))

/-- Modelled from the spec: Django AbstractBaseUser.set_password stores a
salted one-way hash of the password, never the plaintext.  One-wayness is
a computational property outside the model; the digest is abstracted as
an injective tagging of salt and password under the algorithm prefix,
which keeps the provable parts of the contract: the stored string is a
function of salt and password and always differs from the plaintext. -/
def hashPassword (salt p : String) : String :=
  "pbkdf2_sha256$" ++ salt ++ "$" ++ p

/-- core.models User row (email login, flags from PermissionsMixin). -/
structure User where
  id : Nat
  email : String
  name : String
  password : String
  is_active : Bool
  is_staff : Bool
  is_superuser : Bool
deriving DecidableEq, Repr

/-- The user row that create_user constructs before saving: normalized
email, hashed password, default flags. -/
def freshUser (nextId : Nat) (salt email password uname : String) : User :=
  { id := nextId, email := normalize_email email, name := uname,
    password := hashPassword salt password,
    is_active := true, is_staff := false, is_superuser := false }

/-- core.models.UserManager.create_user: reject a falsy (empty) email
with ValueError (the spec's error taxonomy files this under
ValidationError: a missing required field), normalize the email, hash
the password, and save; saving enforces the email uniqueness constraint
of the User table. -/
def create_user (db : List User) (nextId : Nat) (salt : String)
    (email : String) (password : String) (uname : String) :
    Except String (List User × User) :=
  if email = "" then .error "User must have an email address"
  else
    let u : User :=
      { id := nextId, email := normalize_email email, name := uname,
        password := hashPassword salt password,
        is_active := true, is_staff := false, is_superuser := false }
    if db.any (fun v => v.email == u.email) then
      .error "UNIQUE constraint failed: core_user.email"
    else .ok (db ++ [u], u)

/-- core.models.UserManager.create_superuser: create a user through
create_user, then set is_superuser and is_staff and save again. -/
def create_superuser (db : List User) (nextId : Nat) (salt : String)
    (email : String) (password : String) :
    Except String (List User × User) :=
  match create_user db nextId salt email password "" with
  | .error e => .error e
  | .ok (db2, u) =>
    let u2 := { u with is_superuser := true, is_staff := true }
    .ok (db2.map (fun x => if x.id = u.id then u2 else x), u2)

/-- Calendar date (Django DateField value). -/
structure Date where
  year : Nat
  month : Nat
  day : Nat
deriving DecidableEq, Repr

/-- Gregorian leap year rule. -/
def isLeapYear (y : Nat) : Bool :=
  (y % 4 == 0 && y % 100 != 0) || y % 400 == 0

/-- Days in a month of a given year. -/
def daysInMonth (y m : Nat) : Nat :=
  if m = 2 then (if isLeapYear y then 29 else 28)
  else if m = 4 ∨ m = 6 ∨ m = 9 ∨ m = 11 then 30
  else 31

/-- Decimal digit to character. -/
def digitChar (n : Nat) : Char :=
  if n = 0 then '0' else if n = 1 then '1' else if n = 2 then '2'
  else if n = 3 then '3' else if n = 4 then '4' else if n = 5 then '5'
  else if n = 6 then '6' else if n = 7 then '7' else if n = 8 then '8'
  else '9'

/-- Character to decimal digit, none on a non-digit. -/
def charDigit (c : Char) : Option Nat :=
  if c = '0' then some 0 else if c = '1' then some 1 else if c = '2' then some 2
  else if c = '3' then some 3 else if c = '4' then some 4 else if c = '5' then some 5
  else if c = '6' then some 6 else if c = '7' then some 7 else if c = '8' then some 8
  else if c = '9' then some 9 else none

/-- Fixed-width decimal rendering with leading zeros (printf %0wd). -/
def padNum : Nat → Nat → List Char
  | 0, _ => []
  | w + 1, v => padNum w (v / 10) ++ [digitChar (v % 10)]

/-- Modelled from the spec: the serializer's date coercion (date type to
ISO-8601 "YYYY-MM-DD" string), performed by the REST framework's
DateField on output; the framework is not under src/. -/
def dateToIso (d : Date) : String :=
  String.mk (padNum 4 d.year ++ '-' :: (padNum 2 d.month ++ '-' :: padNum 2 d.day))

/-- Modelled from the spec: the serializer's date coercion on input
(ISO-8601 "YYYY-MM-DD" string to date type, rejecting malformed strings
and out-of-range calendar components). -/
def parseDateChars : List Char → Option Date
  | [c1, c2, c3, c4, '-', c5, c6, '-', c7, c8] => do
    let y1 ← charDigit c1
    let y2 ← charDigit c2
    let y3 ← charDigit c3
    let y4 ← charDigit c4
    let m1 ← charDigit c5
    let m2 ← charDigit c6
    let d1 ← charDigit c7
    let d2 ← charDigit c8
    let y := ((y1 * 10 + y2) * 10 + y3) * 10 + y4
    let m := m1 * 10 + m2
    let d := d1 * 10 + d2
    if 1 ≤ y ∧ 1 ≤ m ∧ m ≤ 12 ∧ 1 ≤ d ∧ d ≤ daysInMonth y m then
      some ⟨y, m, d⟩
    else none
  | _ => none

/-- Parse an ISO date string. -/
def parseDate (s : String) : Option Date := parseDateChars s.data

/-- core.models Book row: owner foreign key (user), three char columns
of width 255, a date, unbounded text and an optional image path. -/
structure Book where
  id : Nat
  user : Nat
  title : String
  author : String
  release_date : Date
  genre : String
  description : String
  image : Option String
deriving DecidableEq, Repr

/-- Error taxonomy of the API layer (section 7 of the spec); auth is out
of scope here since every operation already receives the caller. -/
inductive ApiError
  | validationError
  | notFound
deriving DecidableEq, Repr

/-- Incoming JSON payload for the full book serializer: each writable
field may be present or absent; a client may also send an owner/user
key, which the serializer does not declare and therefore ignores. -/
structure BookPayload where
  title : Option String := none
  author : Option String := none
  release_date : Option String := none
  genre : Option String := none
  description : Option String := none
  image : Option String := none
  user : Option Nat := none
deriving DecidableEq, Repr

/-- The validated writable fields of BookSerializer
(src/app/book/serializers.py): everything except the read-only id and
the undeclared owner. -/
structure BookFields where
  title : String
  author : String
  release_date : Date
  genre : String
  description : String
  image : Option String
deriving DecidableEq, Repr

/-- Modelled from the spec: BookSerializer input validation as DRF
derives it from the Book model (the serializer itself is declarative;
the validation engine is framework code not under src/): title, author,
release_date, genre and description are required; char columns are
capped at 255 and may not be blank; the date must parse; image is
optional; unknown payload keys (such as user) are dropped. -/
def validateBookPayload (p : BookPayload) : Except ApiError BookFields :=
  match p.title, p.author, p.release_date, p.genre, p.description with
  | some t, some a, some rs, some g, some de =>
    if t ≠ "" ∧ t.length ≤ 255 ∧ a ≠ "" ∧ a.length ≤ 255 ∧
        g ≠ "" ∧ g.length ≤ 255 ∧ de ≠ "" then
      match parseDate rs with
      | some rd => .ok ⟨t, a, rd, g, de, p.image⟩
      | none => .error .validationError
    else .error .validationError
  | _, _, _, _, _ => .error .validationError

/-- Validation of a single present field in a PATCH payload (absent
fields keep the instance value and are not validated). -/
def validCharField (s : String) : Except ApiError String :=
  if s ≠ "" ∧ s.length ≤ 255 then .ok s else .error .validationError

/-- Validation of a present text field in a PATCH payload. -/
def validTextField (s : String) : Except ApiError String :=
  if s ≠ "" then .ok s else .error .validationError

/-- Modelled from the spec: partial-update validation — only the fields
present in the payload are validated, absent ones keep the stored
values of the instance being updated. -/
def validatePatchPayload (b : Book) (p : BookPayload) : Except ApiError BookFields := do
  let t ← match p.title with | none => Except.ok b.title | some s => validCharField s
  let a ← match p.author with | none => Except.ok b.author | some s => validCharField s
  let rd ← match p.release_date with
    | none => Except.ok b.release_date
    | some rs =>
      match parseDate rs with
      | some rd => Except.ok rd
      | none => Except.error ApiError.validationError
  let g ← match p.genre with | none => Except.ok b.genre | some s => validCharField s
  let de ← match p.description with | none => Except.ok b.description | some s => validTextField s
  let im := match p.image with | none => b.image | some s => some s
  pure ⟨t, a, rd, g, de, im⟩

/-- Write the validated serializer fields onto a book instance; id and
owner are not serializer fields and are untouched. -/
def applyFields (b : Book) (f : BookFields) : Book :=
  { b with title := f.title, author := f.author, release_date := f.release_date,
           genre := f.genre, description := f.description, image := f.image }

/-- A fresh book row built by serializer.save(user=request.user). -/
def newBook (nextId caller : Nat) (f : BookFields) : Book :=
  { id := nextId, user := caller, title := f.title, author := f.author,
    release_date := f.release_date, genre := f.genre,
    description := f.description, image := f.image }

/-- Insert a book into a list kept in descending id order. -/
def insertDescById (b : Book) : List Book → List Book
  | [] => [b]
  | x :: xs => if x.id ≤ b.id then b :: x :: xs else x :: insertDescById b xs

/-- Sort a list of books by descending id (order_by "-id"). -/
def orderByIdDesc (l : List Book) : List Book := l.foldr insertDescById []

/-- BookViewSet.get_queryset (src/app/book/views.py): the books of the
authenticated caller, newest id first. -/
def get_queryset (db : List Book) (caller : Nat) : List Book :=
  orderByIdDesc (db.filter (fun b => b.user == caller))

/-- The list action returns the owner-scoped queryset. -/
def listBooks (db : List Book) (caller : Nat) : List Book :=
  get_queryset db caller

/-- DRF get_object on the owner-scoped queryset: the caller's book with
the given primary key, if any (ordering is irrelevant for a pk lookup). -/
def get_object (db : List Book) (caller i : Nat) : Option Book :=
  (db.filter (fun b => b.user == caller)).find? (fun b => b.id == i)

/-- The retrieve action: 404 when the pk does not resolve inside the
caller's queryset — whether the row is absent altogether or owned by a
different user, the very same NotFound value is produced. -/
def retrieve (db : List Book) (caller i : Nat) : Except ApiError Book :=
  match get_object db caller i with
  | some b => .ok b
  | none => .error .notFound

/-- The create action with BookViewSet.perform_create: validate the
payload, then save with user forced to request.user; the payload's own
user key never reaches the saved row.  Returns the new database state
and the response. -/
def create (db : List Book) (caller nextId : Nat) (p : BookPayload) :
    List Book × Except ApiError Book :=
  match validateBookPayload p with
  | .error e => (db, .error e)
  | .ok f =>
    let b := newBook nextId caller f
    (db ++ [b], .ok b)

/-- The update (isPatch = false) and partial_update (isPatch = true)
actions: resolve the object inside the caller's queryset, validate, and
write the validated fields back onto the row.  Returns the new database
state and the response. -/
def performUpdate (db : List Book) (caller i : Nat) (p : BookPayload) (isPatch : Bool) :
    List Book × Except ApiError Book :=
  match get_object db caller i with
  | none => (db, .error .notFound)
  | some b =>
    match (if isPatch then validatePatchPayload b p else validateBookPayload p) with
    | .error e => (db, .error e)
    | .ok f =>
      let b2 := applyFields b f
      (db.map (fun x => if x.id = i then b2 else x), .ok b2)

/-- A multipart upload: the client file name plus whether the image
library can decode the content.  Decodability is PIL semantics, modelled
from the spec as a flag on the file ("payload is not a decodable
image"). -/
structure UploadedFile where
  name : String
  decodable : Bool
deriving DecidableEq, Repr

/-- The multipart payload of the upload-image endpoint: the image field
may be absent. -/
structure ImagePayload where
  image : Option UploadedFile
deriving DecidableEq, Repr

/-- BookViewSet.upload_image: resolve the book in the caller's queryset,
run BookImageSerializer (image required and must decode), and only on
success save the file under a fresh uuid path and update the row; on
validation failure nothing is saved and 400 is returned.  The fresh
uuid4 is injected as uuidHex.  Returns the new database state and the
response. -/
def upload_image (db : List Book) (caller i : Nat) (p : ImagePayload) (uuidHex : String) :
    List Book × Except ApiError Book :=
  match get_object db caller i with
  | none => (db, .error .notFound)
  | some b =>
    match p.image with
    | none => (db, .error .validationError)
    | some f =>
      if f.decodable then
        let b2 := { b with image := some (book_image_file_path uuidHex f.name) }
        (db.map (fun x => if x.id = i then b2 else x), .ok b2)
      else (db, .error .validationError)

/-- The serialized (JSON) full projection of a book: id, title, author,
release_date (ISO string), genre, description, image. -/
structure BookJson where
  id : Nat
  title : String
  author : String
  release_date : String
  genre : String
  description : String
  image : Option String
deriving DecidableEq, Repr

/-- BookSerializer on output: direct field mapping, with the date
rendered as an ISO string; id is included read-only. -/
def serializeBook (b : Book) : BookJson :=
  { id := b.id, title := b.title, author := b.author,
    release_date := dateToIso b.release_date, genre := b.genre,
    description := b.description, image := b.image }

/-- Feed a serialized book back to the serializer as an input payload
(every writable field present; id is read-only and not writable). -/
def payloadOfJson (j : BookJson) : BookPayload :=
  { title := some j.title, author := some j.author,
    release_date := some j.release_date, genre := some j.genre,
    description := some j.description, image := j.image, user := none }

/-- BookSerializer on input applied to a serialized book: validate and
produce the writable fields. -/
def deserializeBookJson (j : BookJson) : Except ApiError BookFields :=
  validateBookPayload (payloadOfJson j)

/-! Basic string facts used throughout. -/

deriving instance DecidableEq for Except

theorem str_data_append (a b : String) : (a ++ b).data = a.data ++ b.data := by
  cases a; cases b; rfl

theorem strMk_append (a b : List Char) : String.mk a ++ String.mk b = String.mk (a ++ b) := rfl

theorem str_eq_empty_iff (s : String) : s = "" ↔ s.data = [] := by
  rw [String.ext_iff]

theorem str_len_data (s : String) : s.length = s.data.length := rfl

/-- The book serializer never reads the payload's user key, so replacing
it does not change validation. -/
theorem validateBookPayload_ignores_user (p : BookPayload) (v : Option Nat) :
    validateBookPayload { p with user := v } = validateBookPayload p := rfl

/-- C1: for every authenticated user and every valid create payload, the
book persisted by create has owner equal to the caller, even when the
payload carries an owner/user field; the created record's remaining
fields are exactly the validated payload fields, and the record is
persisted. -/
theorem C1_create_forces_owner (db : List Book) (caller nextId : Nat) (p : BookPayload)
    (db2 : List Book) (b : Book)
    (h : create db caller nextId p = (db2, .ok b)) :
    b.user = caller ∧
    validateBookPayload p = .ok ⟨b.title, b.author, b.release_date, b.genre,
      b.description, b.image⟩ ∧
    b ∈ db2 ∧
    (∀ v, create db caller nextId { p with user := v } = (db2, .ok b)) := by
  unfold create at h
  cases hv : validateBookPayload p with
  | error e =>
    rw [hv] at h
    simp at h
  | ok f =>
    rw [hv] at h
    have hdb : db ++ [newBook nextId caller f] = db2 := congrArg Prod.fst h
    have hb : newBook nextId caller f = b := by
      have := congrArg Prod.snd h
      simpa using this
    subst hb
    subst hdb
    refine ⟨rfl, ?_, ?_, ?_⟩
    · rfl
    · exact List.mem_append_right db (List.mem_singleton.mpr rfl)
    · intro v
      show create db caller nextId p = _
      unfold create
      rw [hv]

theorem C1_create_forces_owner_witness :
    create [] 7 1 ⟨some "T", some "A", some "2030-09-12", some "G", some "D", none, some 99⟩ =
      ([⟨1, 7, "T", "A", ⟨2030, 9, 12⟩, "G", "D", none⟩],
        .ok ⟨1, 7, "T", "A", ⟨2030, 9, 12⟩, "G", "D", none⟩) ∧
    (⟨1, 7, "T", "A", ⟨2030, 9, 12⟩, "G", "D", none⟩ : Book).user = 7 := by
  refine ⟨by decide, ?_⟩
  exact (C1_create_forces_owner [] 7 1
    ⟨some "T", some "A", some "2030-09-12", some "G", some "D", none, some 99⟩
    [⟨1, 7, "T", "A", ⟨2030, 9, 12⟩, "G", "D", none⟩]
    ⟨1, 7, "T", "A", ⟨2030, 9, 12⟩, "G", "D", none⟩ (by decide)).1

/-- C2: retrieve fails with NotFound exactly when no book with that id
owned by the caller exists; a row that is absent altogether and a row
owned by a different user produce the very same NotFound value, so the
two cases are indistinguishable to the caller, and NotFound is the only
error retrieve can produce. -/
theorem C2_retrieve_notfound_iff (db : List Book) (caller i : Nat) :
    (retrieve db caller i = .error .notFound ↔
      ∀ b ∈ db, b.id = i → b.user ≠ caller) ∧
    (∀ e, retrieve db caller i = .error e → e = .notFound) := by
  cases hf : get_object db caller i with
  | some b =>
    have hr : retrieve db caller i = .ok b := by unfold retrieve; rw [hf]
    have hf2 := hf
    unfold get_object at hf2
    have hmem := List.mem_of_find?_eq_some hf2
    have hpb := List.find?_some hf2
    rw [List.mem_filter] at hmem
    refine ⟨⟨fun h => ?_, fun hall => ?_⟩, fun e he => ?_⟩
    · rw [hr] at h
      exact absurd h (by simp)
    · exact absurd (by simpa using hmem.2) (hall b hmem.1 (by simpa using hpb))
    · rw [hr] at he
      exact absurd he (by simp)
  | none =>
    have hr : retrieve db caller i = .error .notFound := by unfold retrieve; rw [hf]
    have hf2 := hf
    unfold get_object at hf2
    refine ⟨⟨fun _ b hb hbi hbu => ?_, fun _ => hr⟩, fun e he => ?_⟩
    · have hmemf : b ∈ db.filter (fun b => b.user == caller) :=
        List.mem_filter.mpr ⟨hb, by simpa using hbu⟩
      have := List.find?_eq_none.mp hf2 b hmemf
      simp [hbi] at this
    · rw [hr] at he
      simpa using he.symm

theorem C2_retrieve_notfound_iff_witness :
    retrieve [⟨1, 5, "t", "a", ⟨2020, 1, 1⟩, "g", "d", none⟩] 6 1 = .error .notFound ∧
    retrieve [⟨1, 5, "t", "a", ⟨2020, 1, 1⟩, "g", "d", none⟩] 6 2 = .error .notFound := by
  constructor
  · exact (C2_retrieve_notfound_iff [⟨1, 5, "t", "a", ⟨2020, 1, 1⟩, "g", "d", none⟩] 6 1).1.mpr
      (by decide)
  · exact (C2_retrieve_notfound_iff [⟨1, 5, "t", "a", ⟨2020, 1, 1⟩, "g", "d", none⟩] 6 2).1.mpr
      (by decide)

/-! Sorting facts for the owner-scoped queryset ordering. -/

theorem insertDescById_perm (b : Book) (l : List Book) :
    List.Perm (insertDescById b l) (b :: l) := by
  induction l with
  | nil => exact List.Perm.refl _
  | cons x xs ih =>
    simp only [insertDescById]
    split
    · exact List.Perm.refl _
    · exact (ih.cons x).trans (List.Perm.swap b x xs)

theorem orderByIdDesc_perm (l : List Book) : List.Perm (orderByIdDesc l) l := by
  induction l with
  | nil => exact List.Perm.refl _
  | cons x xs ih =>
    exact (insertDescById_perm x (orderByIdDesc xs)).trans (ih.cons x)

theorem pairwise_insertDescById (b : Book) (l : List Book)
    (h : l.Pairwise (fun a c => c.id ≤ a.id)) :
    (insertDescById b l).Pairwise (fun a c => c.id ≤ a.id) := by
  induction l with
  | nil => simp [insertDescById]
  | cons x xs ih =>
    rw [List.pairwise_cons] at h
    obtain ⟨hx, hxs⟩ := h
    simp only [insertDescById]
    split
    next hle =>
      refine List.pairwise_cons.mpr ⟨?_, List.pairwise_cons.mpr ⟨hx, hxs⟩⟩
      intro y hy
      rcases List.mem_cons.mp hy with rfl | hy2
      · exact hle
      · exact le_trans (hx y hy2) hle
    next hgt =>
      refine List.pairwise_cons.mpr ⟨?_, ih hxs⟩
      intro y hy
      rcases List.mem_cons.mp ((insertDescById_perm b xs).mem_iff.mp hy) with rfl | hy2
      · exact le_of_not_le hgt
      · exact hx y hy2

theorem pairwise_orderByIdDesc (l : List Book) :
    (orderByIdDesc l).Pairwise (fun a c => c.id ≤ a.id) := by
  induction l with
  | nil => simp [orderByIdDesc]
  | cons x xs ih => exact pairwise_insertDescById x (orderByIdDesc xs) ih

/-- C3: list returns exactly the caller's books (never another user's),
in strictly descending id order; strictness uses the primary-key
uniqueness of ids in the table. -/
theorem C3_list_owner_scoped_sorted (db : List Book) (caller : Nat)
    (hnd : (db.map Book.id).Nodup) :
    (∀ b : Book, b ∈ listBooks db caller ↔ b ∈ db ∧ b.user = caller) ∧
    (listBooks db caller).Pairwise (fun a c => c.id < a.id) := by
  have hperm : List.Perm (listBooks db caller) (db.filter (fun b => b.user == caller)) :=
    orderByIdDesc_perm _
  constructor
  · intro b
    rw [hperm.mem_iff, List.mem_filter]
    simp
  · have hle : (listBooks db caller).Pairwise (fun a c => c.id ≤ a.id) :=
      pairwise_orderByIdDesc _
    have hndf : ((db.filter (fun b => b.user == caller)).map Book.id).Nodup :=
      List.Nodup.sublist ((List.filter_sublist db).map Book.id) hnd
    have hnds : ((listBooks db caller).map Book.id).Nodup :=
      ((hperm.map Book.id).nodup_iff).mpr hndf
    have hne : (listBooks db caller).Pairwise (fun a c => a.id ≠ c.id) := by
      have h' : ((listBooks db caller).map Book.id).Pairwise (fun a c => a ≠ c) := hnds
      exact List.pairwise_map.mp h'
    exact (hle.and hne).imp fun h => Nat.lt_of_le_of_ne h.1 (Ne.symm h.2)

theorem C3_list_owner_scoped_sorted_witness :
    ((⟨3, 6, "t", "a", ⟨2020, 1, 1⟩, "g", "d", none⟩ : Book) ∈
        listBooks [⟨1, 5, "t", "a", ⟨2020, 1, 1⟩, "g", "d", none⟩,
          ⟨2, 5, "t", "a", ⟨2020, 1, 1⟩, "g", "d", none⟩,
          ⟨3, 6, "t", "a", ⟨2020, 1, 1⟩, "g", "d", none⟩] 5 ↔
      (⟨3, 6, "t", "a", ⟨2020, 1, 1⟩, "g", "d", none⟩ : Book) ∈
        [⟨1, 5, "t", "a", ⟨2020, 1, 1⟩, "g", "d", none⟩,
          ⟨2, 5, "t", "a", ⟨2020, 1, 1⟩, "g", "d", none⟩,
          ⟨3, 6, "t", "a", ⟨2020, 1, 1⟩, "g", "d", none⟩] ∧ 6 = 5) ∧
    (listBooks [⟨1, 5, "t", "a", ⟨2020, 1, 1⟩, "g", "d", none⟩,
        ⟨2, 5, "t", "a", ⟨2020, 1, 1⟩, "g", "d", none⟩,
        ⟨3, 6, "t", "a", ⟨2020, 1, 1⟩, "g", "d", none⟩] 5).Pairwise
      (fun a c => c.id < a.id) := by
  have h := C3_list_owner_scoped_sorted
    [⟨1, 5, "t", "a", ⟨2020, 1, 1⟩, "g", "d", none⟩,
      ⟨2, 5, "t", "a", ⟨2020, 1, 1⟩, "g", "d", none⟩,
      ⟨3, 6, "t", "a", ⟨2020, 1, 1⟩, "g", "d", none⟩] 5 (by decide)
  exact ⟨h.1 _, h.2⟩

/-- C9: update and partial_update never change a book's owner: the full
serializer declares no owner/user field, so whatever the payload holds
(including a user key, which validation ignores), the saved row keeps
its owner, and no other row's owner or id changes either. -/
theorem C9_update_preserves_owner (db : List Book) (caller i : Nat) (p : BookPayload)
    (isPatch : Bool) (db2 : List Book) (b2 : Book)
    (hnd : (db.map Book.id).Nodup)
    (h : performUpdate db caller i p isPatch = (db2, .ok b2)) :
    b2.user = caller ∧
    db2.map Book.user = db.map Book.user ∧
    db2.map Book.id = db.map Book.id ∧
    (∀ v, performUpdate db caller i { p with user := v } isPatch = (db2, .ok b2)) := by
  unfold performUpdate at h
  cases ho : get_object db caller i with
  | none =>
    rw [ho] at h
    simp at h
  | some b =>
    rw [ho] at h
    dsimp only at h
    have hf2 := ho
    unfold get_object at hf2
    have hmem := List.mem_of_find?_eq_some hf2
    have hpb := List.find?_some hf2
    rw [List.mem_filter] at hmem
    have hbu : b.user = caller := by simpa using hmem.2
    have hbi : b.id = i := by simpa using hpb
    cases hv : (if isPatch then validatePatchPayload b p else validateBookPayload p) with
    | error e =>
      rw [hv] at h
      simp at h
    | ok f =>
      rw [hv] at h
      dsimp only at h
      have hdb : db.map (fun x => if x.id = i then applyFields b f else x) = db2 :=
        congrArg Prod.fst h
      have hb2 : applyFields b f = b2 := by simpa using congrArg Prod.snd h
      subst hb2
      subst hdb
      have hrep : ∀ x ∈ db, (if x.id = i then applyFields b f else x).user = x.user ∧
          (if x.id = i then applyFields b f else x).id = x.id := by
        intro x hx
        by_cases hxi : x.id = i
        · have hxb : x = b := List.inj_on_of_nodup_map hnd hx hmem.1 (by rw [hxi, hbi])
          subst hxb
          simp [hxi, applyFields]
        · simp [hxi]
      refine ⟨hbu, ?_, ?_, ?_⟩
      · rw [List.map_map]
        exact List.map_congr_left fun x hx => (hrep x hx).1
      · rw [List.map_map]
        exact List.map_congr_left fun x hx => (hrep x hx).2
      · intro v
        show performUpdate db caller i p isPatch = _
        unfold performUpdate
        rw [ho]
        dsimp only
        rw [hv]

theorem C9_update_preserves_owner_witness :
    performUpdate [⟨1, 5, "t", "a", ⟨2020, 1, 1⟩, "g", "d", none⟩] 5 1
        ⟨some "T2", some "A2", some "2021-02-03", some "G2", some "D2", none, some 99⟩ false =
      ([⟨1, 5, "T2", "A2", ⟨2021, 2, 3⟩, "G2", "D2", none⟩],
        .ok ⟨1, 5, "T2", "A2", ⟨2021, 2, 3⟩, "G2", "D2", none⟩) ∧
    (⟨1, 5, "T2", "A2", ⟨2021, 2, 3⟩, "G2", "D2", none⟩ : Book).user = 5 := by
  refine ⟨by decide, ?_⟩
  exact (C9_update_preserves_owner [⟨1, 5, "t", "a", ⟨2020, 1, 1⟩, "g", "d", none⟩] 5 1
    ⟨some "T2", some "A2", some "2021-02-03", some "G2", some "D2", none, some 99⟩ false
    [⟨1, 5, "T2", "A2", ⟨2021, 2, 3⟩, "G2", "D2", none⟩]
    ⟨1, 5, "T2", "A2", ⟨2021, 2, 3⟩, "G2", "D2", none⟩ (by decide) (by decide)).1

/-- C4: for a book owned by the caller, upload_image returns
ValidationError exactly when the image field is absent or the uploaded
payload is not a decodable image, and on every failure the stored table
(including the previously stored image reference) is unchanged. -/
theorem C4_upload_image_validation (db : List Book) (caller i : Nat) (p : ImagePayload)
    (u : String) (b : Book) (hb : get_object db caller i = some b) :
    ((upload_image db caller i p u).2 = .error .validationError ↔
      ∀ f, p.image = some f → f.decodable = false) ∧
    (∀ e, (upload_image db caller i p u).2 = .error e →
      (upload_image db caller i p u).1 = db) := by
  cases hp : p.image with
  | none =>
    have heq : upload_image db caller i p u = (db, .error .validationError) := by
      unfold upload_image
      rw [hb, hp]
    rw [heq]
    refine ⟨⟨fun _ f hf => ?_, fun _ => rfl⟩, fun e _ => rfl⟩
    cases hf
  | some f =>
    cases hd : f.decodable with
    | true =>
      have heq : upload_image db caller i p u =
          (db.map (fun x => if x.id = i then
              { b with image := some (book_image_file_path u f.name) } else x),
            .ok { b with image := some (book_image_file_path u f.name) }) := by
        unfold upload_image
        rw [hb, hp]
        dsimp only
        rw [hd]
        rfl
      rw [heq]
      refine ⟨⟨fun h => ?_, fun hall => ?_⟩, fun e he => ?_⟩
      · simp at h
      · have := hall f rfl
        rw [hd] at this
        cases this
      · simp at he
    | false =>
      have heq : upload_image db caller i p u = (db, .error .validationError) := by
        unfold upload_image
        rw [hb, hp]
        dsimp only
        rw [hd]
        rfl
      rw [heq]
      refine ⟨⟨fun _ g hg => ?_, fun _ => rfl⟩, fun e _ => rfl⟩
      cases hg
      exact hd

theorem C4_upload_image_validation_witness :
    (upload_image [⟨1, 5, "t", "a", ⟨2020, 1, 1⟩, "g", "d", some "uploads/book/old.jpg"⟩]
        5 1 ⟨none⟩ "u1").2 = .error .validationError ∧
    (upload_image [⟨1, 5, "t", "a", ⟨2020, 1, 1⟩, "g", "d", some "uploads/book/old.jpg"⟩]
        5 1 ⟨none⟩ "u1").1 =
      [⟨1, 5, "t", "a", ⟨2020, 1, 1⟩, "g", "d", some "uploads/book/old.jpg"⟩] := by
  have h := C4_upload_image_validation
    [⟨1, 5, "t", "a", ⟨2020, 1, 1⟩, "g", "d", some "uploads/book/old.jpg"⟩]
    5 1 ⟨none⟩ "u1" ⟨1, 5, "t", "a", ⟨2020, 1, 1⟩, "g", "d", some "uploads/book/old.jpg"⟩
    (by decide)
  have h1 := h.1.mpr (by simp)
  exact ⟨h1, h.2 ApiError.validationError h1⟩

/-! Facts about last-index search and splitext, for the image path and
email normalization claims. -/

theorem lastIdxOf_eq_none (c : Char) (l : List Char) (h : c ∉ l) :
    lastIdxOf c l = none := by
  induction l with
  | nil => rfl
  | cons x xs ih =>
    simp only [lastIdxOf]
    rw [ih (fun hx => h (List.mem_cons_of_mem x hx))]
    have hxc : ¬x = c := fun he => h (by rw [← he]; exact List.mem_cons_self x xs)
    simp [hxc]

theorem lastIdxOf_append_cons (c : Char) (l d : List Char) (hd : c ∉ d) :
    lastIdxOf c (l ++ c :: d) = some l.length := by
  induction l with
  | nil =>
    simp only [List.nil_append, lastIdxOf]
    rw [lastIdxOf_eq_none c d hd]
    simp
  | cons x xs ih =>
    have hstep : lastIdxOf c ((x :: xs) ++ c :: d) =
        match lastIdxOf c (xs ++ c :: d) with
        | some i => some (i + 1)
        | none => if x = c then some 0 else none := rfl
    rw [hstep, ih]
    rfl

theorem str_append_empty (p : String) : p ++ "" = p := by
  obtain ⟨l⟩ := p
  have he : ("" : String) = String.mk [] := rfl
  rw [he, strMk_append, List.append_nil]

theorem splitext_fst_append_snd (p : String) :
    (splitext p).1 ++ (splitext p).2 = p := by
  unfold splitext
  dsimp only
  cases hdi : lastIdxOf '.' p.data with
  | none => exact str_append_empty p
  | some di =>
    dsimp only
    split
    · split
      · rw [strMk_append, List.take_append_drop]
      · exact str_append_empty p
    · exact str_append_empty p

theorem splitext_snd_drop (p : String) : ∃ n, (splitext p).2.data = p.data.drop n := by
  unfold splitext
  dsimp only
  cases hdi : lastIdxOf '.' p.data with
  | none => exact ⟨p.data.length, by rw [List.drop_length]⟩
  | some di =>
    dsimp only
    split
    · split
      · exact ⟨di, rfl⟩
      · exact ⟨p.data.length, by rw [List.drop_length]⟩
    · exact ⟨p.data.length, by rw [List.drop_length]⟩

/-- The name component of a generated image path is the uuid together
with the original extension, provided neither holds a slash. -/
theorem basename_book_image_file_path (u F : String)
    (hus : '/' ∉ u.data) (hFs : '/' ∉ F.data) :
    basename (book_image_file_path u F) = u ++ (splitext F).2 := by
  have hexts : '/' ∉ (splitext F).2.data := by
    obtain ⟨n, hn⟩ := splitext_snd_drop F
    rw [hn]
    exact fun hmem => hFs (List.mem_of_mem_drop hmem)
  have hnos : '/' ∉ u.data ++ (splitext F).2.data := by
    intro hmem
    rcases List.mem_append.mp hmem with h | h
    · exact hus h
    · exact hexts h
  have hpd : (book_image_file_path u F).data =
      ("uploads/book" : String).data ++ '/' :: (u.data ++ (splitext F).2.data) := by
    show ("uploads/book/" ++ (u ++ (splitext F).2)).data = _
    rw [str_data_append, str_data_append]
    rfl
  have hli : lastIdxOf '/' (book_image_file_path u F).data = some 12 := by
    rw [hpd, lastIdxOf_append_cons '/' _ _ hnos]
    rfl
  unfold basename
  rw [hli]
  dsimp only
  rw [hpd]
  have hassoc : ("uploads/book" : String).data ++ '/' :: (u.data ++ (splitext F).2.data) =
      (("uploads/book" : String).data ++ ['/']) ++ (u.data ++ (splitext F).2.data) := by
    simp
  rw [hassoc, List.drop_left' (by decide), ← strMk_append]

/-- C5: the stored path of an uploaded book image is uploads/book/
followed by the fresh uuid with the original extension; with fresh uuids
(distinct across the two calls, and not equal to the uploaded file's
stem) the name component of the stored path is never the client's base
name, and two uploads of the same file name get distinct stored paths. -/
theorem C5_image_path_fresh_unique (u u1 u2 F : String)
    (h12 : u1 ≠ u2)
    (huroot : u ≠ (splitext F).1)
    (hus : '/' ∉ u.data)
    (hFs : '/' ∉ F.data) :
    book_image_file_path u F = "uploads/book/" ++ (u ++ (splitext F).2) ∧
    book_image_file_path u1 F ≠ book_image_file_path u2 F ∧
    basename (book_image_file_path u F) = u ++ (splitext F).2 ∧
    basename (book_image_file_path u F) ≠ F := by
  refine ⟨rfl, ?_, basename_book_image_file_path u F hus hFs, ?_⟩
  · intro heq
    apply h12
    have hde := congrArg String.data heq
    rw [show book_image_file_path u1 F = "uploads/book/" ++ (u1 ++ (splitext F).2) from rfl,
      show book_image_file_path u2 F = "uploads/book/" ++ (u2 ++ (splitext F).2) from rfl] at hde
    rw [str_data_append, str_data_append, str_data_append, str_data_append] at hde
    have h1 := List.append_cancel_left hde
    have h2 := List.append_cancel_right h1
    exact String.ext h2
  · intro heq
    apply huroot
    rw [basename_book_image_file_path u F hus hFs] at heq
    have huext : u ++ (splitext F).2 = (splitext F).1 ++ (splitext F).2 :=
      heq.trans (splitext_fst_append_snd F).symm
    have hde := congrArg String.data huext
    rw [str_data_append, str_data_append] at hde
    exact String.ext (List.append_cancel_right hde)

theorem C5_image_path_fresh_unique_witness :
    book_image_file_path "aaaa1111" "example.jpg" =
      "uploads/book/" ++ ("aaaa1111" ++ (splitext "example.jpg").2) ∧
    book_image_file_path "bbbb2222" "example.jpg" ≠
      book_image_file_path "cccc3333" "example.jpg" ∧
    basename (book_image_file_path "aaaa1111" "example.jpg") ≠ "example.jpg" := by
  have h := C5_image_path_fresh_unique "aaaa1111" "bbbb2222" "cccc3333" "example.jpg"
    (by decide) (by decide) (by decide) (by decide)
  exact ⟨h.1, h.2.1, h.2.2.2⟩

/-- C6: create_user rejects an empty email (the code raises ValueError
with this message; the spec's taxonomy files the empty required field
under ValidationError), and for a non-empty email (fresh with respect to
the table's uniqueness constraint) it persists and returns a user whose
stored password is the salted hash of the provided password and never
the plaintext. -/
theorem C6_create_user_validates_and_hashes (db : List User) (nextId : Nat)
    (salt uname e pw : String)
    (he : e ≠ "") (hfresh : ∀ v ∈ db, v.email ≠ normalize_email e) :
    create_user db nextId salt "" pw uname = .error "User must have an email address" ∧
    ∃ db2 u, create_user db nextId salt e pw uname = .ok (db2, u) ∧
      u.password = hashPassword salt pw ∧
      u.password ≠ pw ∧
      u.email = normalize_email e ∧
      u ∈ db2 := by
  constructor
  · unfold create_user
    rw [if_pos rfl]
  · have hany : db.any (fun v => v.email == normalize_email e) = false := by
      rw [List.any_eq_false]
      intro v hv
      simpa using hfresh v hv
    refine ⟨db ++ [freshUser nextId salt e pw uname],
      freshUser nextId salt e pw uname, ?_, rfl, ?_, rfl, ?_⟩
    · unfold create_user
      rw [if_neg he]
      dsimp only
      rw [hany]
      rfl
    · intro hcontra
      have hlen := congrArg String.length hcontra
      simp only [freshUser, hashPassword, String.length_append] at hlen
      rw [show ("pbkdf2_sha256$" : String).length = 14 from rfl,
        show ("$" : String).length = 1 from rfl] at hlen
      omega
    · exact List.mem_append_right db (List.mem_singleton.mpr rfl)

theorem C6_create_user_validates_and_hashes_witness :
    create_user [] 1 "s" "" "pw" "n" = .error "User must have an email address" ∧
    create_user [] 1 "s" "a@B.com" "pw" "n" =
      .ok ([⟨1, "a@b.com", "n", "pbkdf2_sha256$s$pw", true, false, false⟩],
        ⟨1, "a@b.com", "n", "pbkdf2_sha256$s$pw", true, false, false⟩) ∧
    ("pbkdf2_sha256$s$pw" : String) ≠ "pw" := by
  have h := C6_create_user_validates_and_hashes [] 1 "s" "n" "a@B.com" "pw"
    (by decide) (by simp)
  refine ⟨h.1, by decide, ?_⟩
  obtain ⟨db2, u, hok, hpw, hne, hem, hmem⟩ := h.2
  intro hc
  apply hne
  rw [hpw]
  exact hc

/-- C8: create_superuser goes through the normal create_user path (so
the password is stored hashed) and the returned persisted user carries
both is_staff and is_superuser. -/
theorem C8_create_superuser_flags (db : List User) (nextId : Nat) (salt e pw : String)
    (db2 : List User) (u : User)
    (h : create_superuser db nextId salt e pw = .ok (db2, u)) :
    u.is_staff = true ∧ u.is_superuser = true ∧
    ∃ db1 u1, create_user db nextId salt e pw "" = .ok (db1, u1) ∧
      u = { u1 with is_superuser := true, is_staff := true } ∧
      u.password = hashPassword salt pw ∧
      u ∈ db2 := by
  unfold create_superuser at h
  cases hc : create_user db nextId salt e pw "" with
  | error e2 =>
    rw [hc] at h
    simp at h
  | ok r =>
    obtain ⟨db1, u1⟩ := r
    rw [hc] at h
    dsimp only at h
    simp only [Except.ok.injEq, Prod.mk.injEq] at h
    obtain ⟨hdb, hu⟩ := h
    subst hu
    subst hdb
    unfold create_user at hc
    split at hc
    · simp at hc
    next hne =>
      dsimp only at hc
      split at hc
      · simp at hc
      next hany =>
        simp only [Except.ok.injEq, Prod.mk.injEq] at hc
        obtain ⟨hdb1, hu1⟩ := hc
        subst hu1
        subst hdb1
        refine ⟨rfl, rfl, db ++ [freshUser nextId salt e pw ""],
          freshUser nextId salt e pw "", ?_, rfl, rfl, ?_⟩
        · rfl
        · exact List.mem_map.mpr ⟨_, List.mem_append_right db (List.mem_singleton.mpr rfl),
            by rw [if_pos rfl]⟩

theorem C8_create_superuser_flags_witness :
    create_superuser [] 1 "s" "a@b.c" "pw" =
      .ok ([⟨1, "a@b.c", "", "pbkdf2_sha256$s$pw", true, true, true⟩],
        ⟨1, "a@b.c", "", "pbkdf2_sha256$s$pw", true, true, true⟩) ∧
    (⟨1, "a@b.c", "", "pbkdf2_sha256$s$pw", true, true, true⟩ : User).is_staff = true ∧
    (⟨1, "a@b.c", "", "pbkdf2_sha256$s$pw", true, true, true⟩ : User).is_superuser = true := by
  have h := C8_create_superuser_flags [] 1 "s" "a@b.c" "pw"
    [⟨1, "a@b.c", "", "pbkdf2_sha256$s$pw", true, true, true⟩]
    ⟨1, "a@b.c", "", "pbkdf2_sha256$s$pw", true, true, true⟩ (by decide)
  exact ⟨by decide, h.1, h.2.1⟩

/-- The normalization of an email whose domain is separated by its last
at-sign: the local part is kept, the domain is lowercased. -/
theorem normalize_email_split (locp d : String)
    (hat : '@' ∉ d.data)
    (hstrip : pyStrip (locp ++ "@" ++ d) = (locp ++ "@" ++ d).data) :
    normalize_email (locp ++ "@" ++ d) =
      locp ++ "@" ++ String.mk (d.data.map Char.toLower) := by
  have hdata : (locp ++ "@" ++ d).data = locp.data ++ '@' :: d.data := by
    rw [str_data_append, str_data_append]
    rw [show ("@" : String).data = ['@'] from rfl]
    simp
  unfold normalize_email
  dsimp only
  rw [hstrip, hdata, lastIdxOf_append_cons '@' _ _ hat]
  dsimp only
  have htake : (locp.data ++ '@' :: d.data).take locp.data.length = locp.data :=
    List.take_left _ _
  have hdrop : (locp.data ++ '@' :: d.data).drop (locp.data.length + 1) = d.data := by
    rw [show locp.data ++ '@' :: d.data = (locp.data ++ ['@']) ++ d.data by simp]
    exact List.drop_left' (by simp)
  rw [htake, hdrop]
  apply String.ext
  rw [str_data_append, str_data_append]
  rw [show ("@" : String).data = ['@'] from rfl]
  simp

/-- C10: create_user stores the normalized email (domain after the at
sign lowercased, local part untouched), so a second create_user whose
email differs from the first only in the letter case of the domain hits
the email uniqueness constraint. -/
theorem C10_email_domain_normalized (locp d1 d2 : String)
    (db : List User) (n1 n2 : Nat) (s1 s2 pw1 pw2 nm1 nm2 : String)
    (db2 : List User) (u : User)
    (hcase : d1.data.map Char.toLower = d2.data.map Char.toLower)
    (hat1 : '@' ∉ d1.data) (hat2 : '@' ∉ d2.data)
    (hstrip1 : pyStrip (locp ++ "@" ++ d1) = (locp ++ "@" ++ d1).data)
    (hstrip2 : pyStrip (locp ++ "@" ++ d2) = (locp ++ "@" ++ d2).data)
    (h : create_user db n1 s1 (locp ++ "@" ++ d1) pw1 nm1 = .ok (db2, u)) :
    u.email = normalize_email (locp ++ "@" ++ d1) ∧
    u.email = locp ++ "@" ++ String.mk (d1.data.map Char.toLower) ∧
    create_user db2 n2 s2 (locp ++ "@" ++ d2) pw2 nm2 =
      .error "UNIQUE constraint failed: core_user.email" := by
  have hn1 := normalize_email_split locp d1 hat1 hstrip1
  have hn2 := normalize_email_split locp d2 hat2 hstrip2
  have hsame : normalize_email (locp ++ "@" ++ d2) = normalize_email (locp ++ "@" ++ d1) := by
    rw [hn1, hn2, hcase]
  unfold create_user at h
  split at h
  · simp at h
  next hne1 =>
    dsimp only at h
    split at h
    · simp at h
    next hany =>
      simp only [Except.ok.injEq, Prod.mk.injEq] at h
      obtain ⟨hdb, hu⟩ := h
      subst hu
      subst hdb
      refine ⟨rfl, hn1, ?_⟩
      have hne2 : ¬(locp ++ "@" ++ d2) = "" := by
        intro hc
        have hd := congrArg String.data hc
        rw [str_data_append, str_data_append,
          show ("@" : String).data = ['@'] from rfl] at hd
        simp at hd
      have hmem : ((db ++ [freshUser n1 s1 (locp ++ "@" ++ d1) pw1 nm1]).any
          (fun v => v.email == normalize_email (locp ++ "@" ++ d2))) = true := by
        rw [List.any_eq_true]
        refine ⟨freshUser n1 s1 (locp ++ "@" ++ d1) pw1 nm1,
          List.mem_append_right db (List.mem_singleton.mpr rfl), ?_⟩
        rw [hsame]
        exact beq_iff_eq.mpr rfl
      unfold create_user
      rw [if_neg hne2]
      dsimp only
      exact if_pos hmem

theorem C10_email_domain_normalized_witness :
    (⟨1, "Bob@example.com", "n", "pbkdf2_sha256$s$pw", true, false, false⟩ : User).email =
      "Bob" ++ "@" ++ String.mk ("ExAmPle.Com".data.map Char.toLower) ∧
    create_user [⟨1, "Bob@example.com", "n", "pbkdf2_sha256$s$pw", true, false, false⟩]
      2 "s2" ("Bob" ++ "@" ++ "example.com") "pw2" "n2" =
      .error "UNIQUE constraint failed: core_user.email" := by
  have h := C10_email_domain_normalized "Bob" "ExAmPle.Com" "example.com" [] 1 2 "s" "s2"
    "pw" "pw2" "n" "n2"
    [⟨1, "Bob@example.com", "n", "pbkdf2_sha256$s$pw", true, false, false⟩]
    ⟨1, "Bob@example.com", "n", "pbkdf2_sha256$s$pw", true, false, false⟩
    (by decide) (by decide) (by decide) (by decide) (by decide) (by decide)
  exact ⟨h.2.1, h.2.2⟩

/-! Digit and date coercion facts for the serializer round trip. -/

theorem daysInMonth_le (y m : Nat) : daysInMonth y m ≤ 31 := by
  unfold daysInMonth
  split
  · split <;> omega
  · split <;> omega

theorem charDigit_digitChar (k : Nat) (h : k < 10) :
    charDigit (digitChar k) = some k := by
  interval_cases k <;> rfl

theorem charDigit_digitChar_mod (v : Nat) :
    charDigit (digitChar (v % 10)) = some (v % 10) :=
  charDigit_digitChar (v % 10) (Nat.mod_lt v (by norm_num))

/-- Printing a valid date to ISO form and parsing it back is the
identity. -/
theorem parseDate_dateToIso (d : Date) (h1 : 1 ≤ d.year) (h2 : d.year ≤ 9999)
    (h3 : 1 ≤ d.month) (h4 : d.month ≤ 12) (h5 : 1 ≤ d.day)
    (h6 : d.day ≤ daysInMonth d.year d.month) :
    parseDate (dateToIso d) = some d := by
  obtain ⟨y, m, dd⟩ := d
  have h1' : 1 ≤ y := h1
  have h2' : y ≤ 9999 := h2
  have h3' : 1 ≤ m := h3
  have h4' : m ≤ 12 := h4
  have h5' : 1 ≤ dd := h5
  have h6' : dd ≤ daysInMonth y m := h6
  unfold parseDate dateToIso
  dsimp only
  simp only [padNum, List.nil_append, List.cons_append, List.append_assoc,
    List.singleton_append]
  simp only [parseDateChars, charDigit_digitChar_mod, Option.bind_eq_bind,
    Option.some_bind]
  have hY : ((y / 10 / 10 / 10 % 10 * 10 + y / 10 / 10 % 10) * 10 + y / 10 % 10) * 10 +
      y % 10 = y := by omega
  have hM : m / 10 % 10 * 10 + m % 10 = m := by omega
  have hdd : dd ≤ 31 := le_trans h6' (daysInMonth_le y m)
  have hD : dd / 10 % 10 * 10 + dd % 10 = dd := by omega
  rw [hY, hM, hD, if_pos ⟨h1', h3', h4', h5', h6'⟩]

/-- C7: serializing a stored book through the full projection and
deserializing the result reproduces every writable field (the read-only
id is not part of the writable fields); the hypotheses are the storage
invariants of a book row (non-blank char columns within their widths
and a valid calendar date). -/
theorem C7_serializer_roundtrip (b : Book)
    (ht : b.title ≠ "") (ht2 : b.title.length ≤ 255)
    (ha : b.author ≠ "") (ha2 : b.author.length ≤ 255)
    (hg : b.genre ≠ "") (hg2 : b.genre.length ≤ 255)
    (hde : b.description ≠ "")
    (hy1 : 1 ≤ b.release_date.year) (hy2 : b.release_date.year ≤ 9999)
    (hm1 : 1 ≤ b.release_date.month) (hm2 : b.release_date.month ≤ 12)
    (hd1 : 1 ≤ b.release_date.day)
    (hd2 : b.release_date.day ≤ daysInMonth b.release_date.year b.release_date.month) :
    deserializeBookJson (serializeBook b) =
      .ok ⟨b.title, b.author, b.release_date, b.genre, b.description, b.image⟩ := by
  unfold deserializeBookJson payloadOfJson serializeBook validateBookPayload
  dsimp only
  rw [if_pos ⟨ht, ht2, ha, ha2, hg, hg2, hde⟩]
  rw [parseDate_dateToIso b.release_date hy1 hy2 hm1 hm2 hd1 hd2]

theorem C7_serializer_roundtrip_witness :
    deserializeBookJson (serializeBook ⟨1, 5, "T", "A", ⟨2030, 9, 12⟩, "G", "D", none⟩) =
      .ok ⟨"T", "A", ⟨2030, 9, 12⟩, "G", "D", none⟩ :=
  C7_serializer_roundtrip ⟨1, 5, "T", "A", ⟨2030, 9, 12⟩, "G", "D", none⟩
    (by decide) (by decide) (by decide) (by decide) (by decide) (by decide) (by decide)
    (by decide) (by decide) (by decide) (by decide) (by decide) (by decide)
